import Mathlib

/-!
Shallow embedding of the chat-relay program in `src/main.rs` (RustMsgServer).

Each definition mirrors one function, branch, or dispatch of the source,
with the source line numbers noted in its doc comment.  Console and socket
I/O is modelled by explicit event values; `tokio::select!` branches are
modelled as separate step functions on the event that fired.
-/

namespace RustMsgServer

/-- The `ServerCommand` enum (main.rs lines 8-17). -/
inductive ServerCommand where
  | Host (addr : String)
  | Join (addr : String)
  | Leave
  | Shutdown
  | Msg (text : String)
  | Quit
  | Help
  | Status
deriving DecidableEq

/-- The `Mode` enum (main.rs lines 19-24). -/
inductive Mode where
  | Admin
  | Host (addr : String)
  | Client (addr : String)
deriving DecidableEq

/-- One outcome of a `read_line` call on a buffered reader:
`ok line` is `Ok(n)` where `line` is what was appended to the buffer
(so `ok ""` is the zero-byte read `Ok(0)`), and `err` is `Err(_)`. -/
inductive ReadEvent where
  | ok (line : String)
  | err
deriving DecidableEq

/-- Accumulator-style splitter over the characters of the line: Rust's
`str::split_whitespace`, which cuts at whitespace and keeps only the
non-empty pieces (used at main.rs line 116). -/
def splitWsAux : List Char → List Char → List (List Char)
  | [], acc => if acc.isEmpty then [] else [acc.reverse]
  | c :: cs, acc =>
    if c.isWhitespace then
      if acc.isEmpty then splitWsAux cs []
      else acc.reverse :: splitWsAux cs []
    else splitWsAux cs (c :: acc)

/-- `input.split_whitespace().collect::<Vec<_>>()` (main.rs line 116). -/
def splitWhitespace (s : String) : List String :=
  (splitWsAux s.toList []).map (fun cs => String.mk cs)

/-- Rust's `str::trim`: drop whitespace from both ends
(applied to `words[0]` at main.rs line 117). -/
def rust_trim (s : String) : String :=
  String.mk (((s.toList.dropWhile Char.isWhitespace).reverse.dropWhile
    Char.isWhitespace).reverse)

/-- What one iteration of the `get_command` loop does with the token list of
one input line (main.rs lines 116-151): return a command, print an error and
re-prompt (`continue`), or — when the line has no tokens — panic on the
out-of-bounds access `words[0]`. -/
inductive ParseResult where
  | ret (c : ServerCommand)
  | reprompt
  | indexPanic
deriving DecidableEq

/-- The body of `get_command` after a successful non-empty read, on the
whitespace-split token list `words` (main.rs lines 116-151).  The empty token
list maps to `indexPanic` because the source indexes `words[0]` unchecked. -/
def parse_tokens : List String → ParseResult
  | [] => ParseResult.indexPanic
  | w :: rest =>
    match rust_trim w with
    | "host" =>
      match rest with
      | [] => ParseResult.ret (ServerCommand.Host "localhost:8080")
      | [a] => ParseResult.ret (ServerCommand.Host a)
      | _ => ParseResult.reprompt
    | "join" =>
      match rest with
      | [] => ParseResult.ret (ServerCommand.Join "localhost:8080")
      | [a] => ParseResult.ret (ServerCommand.Join a)
      | _ => ParseResult.reprompt
    | "leave" => ParseResult.ret ServerCommand.Leave
    | "shutdown" => ParseResult.ret ServerCommand.Shutdown
    | "msg" =>
      match rest with
      | [] => ParseResult.reprompt
      | ws => ParseResult.ret (ServerCommand.Msg (String.intercalate " " ws))
    | "quit" => ParseResult.ret ServerCommand.Quit
    | "help" => ParseResult.ret ServerCommand.Help
    | "status" => ParseResult.ret ServerCommand.Status
    | _ => ParseResult.reprompt

/-- Parsing one full input line: tokenize, then dispatch on the first token. -/
def parse_line (line : String) : ParseResult :=
  parse_tokens (splitWhitespace line)

/-- Result of a whole `get_command` call (main.rs lines 98-153) on a finite
list of stdin read events.  `outOfInput` is a model artifact for running off
the end of the event list; the real stdin always yields another event. -/
inductive GetOutcome where
  | ret (c : ServerCommand)
  | indexPanic
  | outOfInput
deriving DecidableEq

/-- `get_command` (main.rs lines 98-153): a zero-byte read or a read error
returns a synthesized `Shutdown`; otherwise the line is parsed, and on a
malformed line the loop continues with the next read event. -/
def get_command : List ReadEvent → GetOutcome
  | [] => GetOutcome.outOfInput
  | ReadEvent.err :: _ => GetOutcome.ret ServerCommand.Shutdown
  | ReadEvent.ok line :: rest =>
    if line = "" then GetOutcome.ret ServerCommand.Shutdown
    else
      match parse_line line with
      | ParseResult.ret c => GetOutcome.ret c
      | ParseResult.reprompt => get_command rest
      | ParseResult.indexPanic => GetOutcome.indexPanic

/-- The dispatch at the top of `main`'s loop (main.rs lines 32-50).  It runs
on whatever `mode` currently holds; `Host`/`Join` overwrite the mode, `Quit`
is the only `return` (modelled by `none` = process exit), and every other arm
only prints, leaving the mode unchanged. -/
def main_admin_dispatch (mode : Mode) : ServerCommand → Option Mode
  | ServerCommand.Host a => some (Mode.Host a)
  | ServerCommand.Join a => some (Mode.Client a)
  | ServerCommand.Leave => some mode
  | ServerCommand.Shutdown => some mode
  | ServerCommand.Msg _ => some mode
  | ServerCommand.Quit => none
  | ServerCommand.Help => some mode
  | ServerCommand.Status => some mode

/-- The command arm of the Host-mode `select` inside the `while let
Mode::Host` loop (main.rs lines 62-82).  `Leave` sets the mode back to Admin,
`Shutdown` and `Quit` are `return`s (`none` = process exit); all other arms
print and keep hosting. -/
def host_mode_dispatch (addr : String) : ServerCommand → Option Mode
  | ServerCommand.Host _ => some (Mode.Host addr)
  | ServerCommand.Join _ => some (Mode.Host addr)
  | ServerCommand.Leave => some Mode.Admin
  | ServerCommand.Shutdown => none
  | ServerCommand.Msg _ => some (Mode.Host addr)
  | ServerCommand.Quit => none
  | ServerCommand.Help => some (Mode.Host addr)
  | ServerCommand.Status => some (Mode.Host addr)

/-- The `if let Mode::Client(addr)` block at the bottom of `main`'s loop
(main.rs lines 86-94), applied to the result of `join_session`
(`sessionOk = true` for `Ok`).  The block contains no `return`, so it always
continues the loop (`some`); the mode is set to Admin only in the `Err` arm —
in the `Ok` arm it stays `Client(addr)`. -/
def after_client_branch (mode : Mode) (sessionOk : Bool) : Option Mode :=
  match mode with
  | Mode.Client a => if sessionOk then some (Mode.Client a) else some Mode.Admin
  | m => some m

/-- What one fired branch of `join_session`'s `select` loop does
(main.rs lines 281-326): keep looping (optionally having written `sent`
bytes to the socket), end the session with `Ok`, or end it with `Err`. -/
inductive ClientStep where
  | next (sent : Option String)
  | endOk
  | endErr
deriving DecidableEq

/-- The socket-read arm of `join_session`'s `select` (main.rs lines 283-298):
a zero-byte read returns `Ok(())`, a read error also returns `Ok(())`
(the source comments it should mean quitting), and a non-empty line is
printed and the loop continues. -/
def client_read_step : ReadEvent → ClientStep
  | ReadEvent.ok line => if line = "" then ClientStep.endOk else ClientStep.next none
  | ReadEvent.err => ClientStep.endOk

/-- The bytes `join_session` writes for `Msg(msg)`:
`format!("{}: {}", name, msg)` (main.rs line 311).  No newline is appended
here; `name` is whatever the name-reading loop stored. -/
def msg_wire_bytes (name text : String) : String :=
  name ++ ": " ++ text

/-- The command arm of `join_session`'s `select` (main.rs lines 300-324).
`writeOk` says whether a socket write would succeed.  `Leave` returns
`Ok(())`; `Quit` returns `Err(())`; `Msg` writes `msg_wire_bytes` and returns
`Err(())` exactly on write failure; all other commands print and continue. -/
def client_command_step (name : String) (writeOk : Bool) : ServerCommand → ClientStep
  | ServerCommand.Host _ => ClientStep.next none
  | ServerCommand.Join _ => ClientStep.next none
  | ServerCommand.Leave => ClientStep.endOk
  | ServerCommand.Shutdown => ClientStep.next none
  | ServerCommand.Msg m =>
    if writeOk then ClientStep.next (some (msg_wire_bytes name m))
    else ClientStep.endErr
  | ServerCommand.Quit => ClientStep.endErr
  | ServerCommand.Help => ClientStep.next none
  | ServerCommand.Status => ClientStep.next none

/-- The name-reading loop of `join_session` (main.rs lines 261-279): retry on
zero-byte reads, fail (`none`, the session returns `Err`) on a read error,
and otherwise keep the raw line — `read_line` appends the trailing newline to
the buffer and the source never trims it. -/
def read_name : List ReadEvent → Option String
  | [] => none
  | ReadEvent.err :: _ => none
  | ReadEvent.ok line :: rest =>
    if line = "" then read_name rest else some line

/-- What one fired branch of `handle_server_connection`'s `select` loop does
(main.rs lines 188-233): keep looping, having `published` an envelope to the
broadcast bus and/or `wrote` bytes to this peer's socket, or exit the handler
with `Err` (the handler has no `Ok` exit). -/
inductive HandlerStep where
  | next (published : Option (String × String)) (wrote : Option String)
  | exitErr
deriving DecidableEq

/-- The socket-read arm of `handle_server_connection`'s `select`
(main.rs lines 190-211), for a handler whose peer address is `addr`.
A read error returns `Err`.  A successful read — including the zero-byte
read, whose arm only prints — falls through to `tx.send((line, addr))`:
the accumulated line (empty on a zero-byte read) is published, and only a
failed publish (`sendOk = false`, possible only with no subscribers) exits. -/
def handler_read_step (addr : String) (ev : ReadEvent) (sendOk : Bool) : HandlerStep :=
  match ev with
  | ReadEvent.err => HandlerStep.exitErr
  | ReadEvent.ok data =>
    if sendOk then HandlerStep.next (some (data, addr)) none
    else HandlerStep.exitErr

/-- One outcome of `rx.recv()` on the broadcast bus: an envelope
`(msg, origin)` or a receive error. -/
inductive RecvEvent where
  | ok (msg : String) (origin : String)
  | err
deriving DecidableEq

/-- The broadcast-receive arm of `handle_server_connection`'s `select`
(main.rs lines 213-231): a receive error exits with `Err`; an envelope is
written to this handler's socket iff its origin differs from the handler's
own `addr` (`if addr != other_addr`), and a write failure exits with `Err`;
an own-origin envelope is dropped and the loop continues. -/
def handler_recv_step (addr : String) (ev : RecvEvent) (writeOk : Bool) : HandlerStep :=
  match ev with
  | RecvEvent.err => HandlerStep.exitErr
  | RecvEvent.ok msg origin =>
    if addr ≠ origin then
      if writeOk then HandlerStep.next none (some msg)
      else HandlerStep.exitErr
    else HandlerStep.next none none

/-- Whether the handler for peer `p` writes envelope `(msg, origin)` to its
socket (writes succeeding), read off `handler_recv_step`. -/
def writes_envelope (p msg origin : String) : Bool :=
  match handler_recv_step p (RecvEvent.ok msg origin) true with
  | HandlerStep.next _ (some _) => true
  | _ => false

/-- The peers that receive a copy of `(msg, origin)` when every connected
peer's handler processes the envelope: the bus delivers to every subscriber
and each handler filters by `writes_envelope`. -/
def broadcast_deliveries (peers : List String) (msg origin : String) : List String :=
  peers.filter (fun p => writes_envelope p msg origin)

/-- One iteration of `main`'s loop from its top, in a state where stdin is at
end-of-input: `get_command` sees the zero-byte read `ok ""` and yields its
synthesized command, which the top dispatch handles.  When the resulting mode
is neither `Host` nor `Client`, the rest of the loop body (main.rs lines
51-94) is a no-op, so this is the whole iteration for Admin mode. -/
def admin_eof_step (m : Mode) : Option Mode :=
  match get_command [ReadEvent.ok ""] with
  | GetOutcome.ret c => main_admin_dispatch m c
  | _ => none

/-- `n` driver iterations under persistent stdin end-of-input, starting from
Admin mode; `none` would mean the process exited. -/
def admin_eof_iterate : Nat → Option Mode
  | 0 => some Mode.Admin
  | n + 1 => (admin_eof_iterate n).bind admin_eof_step

/-- A handler writes an envelope iff the envelope's origin differs from the
handler's own peer address. -/
theorem writes_envelope_iff (p msg origin : String) :
    writes_envelope p msg origin = true ↔ p ≠ origin := by
  by_cases h : p = origin <;> simp [writes_envelope, handler_recv_step, h]

/-- C1: the claim says the Driver's Mode reverts to Admin on every terminal
outcome of a client session.  Evaluating the code: a zero-byte socket read
(clean remote close), a socket read error, and an explicit Leave all make
`join_session` return `Ok`, and on `Ok` the driver's client branch keeps
`Mode = Client(addr)` — it does not revert to Admin (and prints no error),
so the next loop iteration will re-enter `join_session` after one more
console command. -/
theorem c1_session_end_keeps_client_mode :
    client_read_step (ReadEvent.ok "") = ClientStep.endOk ∧
    client_read_step ReadEvent.err = ClientStep.endOk ∧
    client_command_step "Alice\n" true ServerCommand.Leave = ClientStep.endOk ∧
    after_client_branch (Mode.Client "localhost:8080") true
      = some (Mode.Client "localhost:8080") ∧
    Mode.Client "localhost:8080" ≠ Mode.Admin := by
  refine ⟨?_, ?_, ?_, ?_, ?_⟩ <;> decide

/-- C2: the claim says `msg a b c` goes onto the wire as the bytes
`"<name>: a b c\n"`.  Evaluating the code: the accepted name keeps the
trailing newline that `read_line` appended, and `format!("{}: {}", ..)`
appends no terminating newline, so for the typed name `Alice` the wire bytes
are `"Alice\n: a b c"`, not `"Alice: a b c\n"`. -/
theorem c2_msg_wire_bytes_not_newline_terminated :
    read_name [ReadEvent.ok "Alice\n"] = some "Alice\n" ∧
    get_command [ReadEvent.ok "msg a b c"]
      = GetOutcome.ret (ServerCommand.Msg "a b c") ∧
    client_command_step "Alice\n" true (ServerCommand.Msg "a b c")
      = ClientStep.next (some "Alice\n: a b c") ∧
    "Alice\n: a b c" ≠ "Alice: a b c\n" := by
  refine ⟨?_, ?_, ?_, ?_⟩ <;> decide

/-- C3: the claim says the command parser never crashes, i.e. indexing the
first whitespace-split token is safe for every line it can receive.
Evaluating the code: the empty console line (the operator pressing Enter
gives the 1-byte line consisting of a newline) splits into zero tokens, and
`words[0]` is an out-of-bounds index — `get_command` panics. -/
theorem c3_empty_line_hits_index_panic :
    splitWhitespace "\n" = [] ∧
    parse_line "\n" = ParseResult.indexPanic ∧
    get_command [ReadEvent.ok "\n"] = GetOutcome.indexPanic := by
  refine ⟨?_, ?_, ?_⟩ <;> decide

/-- C4: the claim says a zero-byte (end-of-stream) read from the peer's
socket terminates the ConnectionHandler.  Evaluating the code: the zero-byte
arm only prints; control falls through to `tx.send`, the handler publishes
the (empty) accumulated line and continues the loop — it does not exit. -/
theorem c4_zero_byte_read_continues_handler (a : String) :
    handler_read_step a (ReadEvent.ok "") true
      = HandlerStep.next (some ("", a)) none ∧
    handler_read_step a (ReadEvent.ok "") true ≠ HandlerStep.exitErr := by
  refine ⟨rfl, ?_⟩
  simp [handler_read_step]

/-- C5: the claim says `quit` terminates the whole process in every Mode.
Evaluating the code: in Admin and Host modes `Quit` is a `return` from
`main`, but in a client session `Quit` merely makes `join_session` return
`Err`, and the driver's client branch then continues the loop with
`Mode = Admin` — control returns to command reading instead of exiting. -/
theorem c5_quit_in_client_session_does_not_exit_process :
    (∀ name w, client_command_step name w ServerCommand.Quit = ClientStep.endErr) ∧
    after_client_branch (Mode.Client "localhost:8080") false = some Mode.Admin ∧
    main_admin_dispatch Mode.Admin ServerCommand.Quit = none ∧
    (∀ a, host_mode_dispatch a ServerCommand.Quit = none) :=
  ⟨fun _ _ => rfl, by decide, rfl, fun _ => rfl⟩

/-- C6: in the client session loop, a zero-length socket read and a socket
read error both end the session with the same non-failure outcome (`Ok` to
the Driver) — the read arm can never produce the failure outcome — while a
failed `Msg` write ends the session with failure (`Err`). -/
theorem c6_read_end_is_ok_write_failure_is_err :
    client_read_step (ReadEvent.ok "") = ClientStep.endOk ∧
    client_read_step ReadEvent.err = ClientStep.endOk ∧
    (∀ name m, client_command_step name false (ServerCommand.Msg m)
      = ClientStep.endErr) ∧
    (∀ ev, client_read_step ev ≠ ClientStep.endErr) := by
  refine ⟨by decide, rfl, fun name m => rfl, fun ev => ?_⟩
  cases ev with
  | ok line => by_cases h : line = "" <;> simp [client_read_step, h]
  | err => simp [client_read_step]

/-- C7: a handler writes a received envelope's text to its socket iff the
envelope's origin differs from the handler's own address; an own-origin
envelope is dropped (no self-echo).  Consequently, among any peer set, an
envelope from peer `origin` is delivered exactly to the peers different from
`origin`. -/
theorem c7_self_echo_excluded (addr origin msg j : String) (peers : List String) :
    (handler_recv_step addr (RecvEvent.ok msg origin) true
        = HandlerStep.next none (some msg) ↔ addr ≠ origin) ∧
    (handler_recv_step addr (RecvEvent.ok msg origin) true
        = HandlerStep.next none none ↔ addr = origin) ∧
    (j ∈ broadcast_deliveries peers msg origin ↔ j ∈ peers ∧ j ≠ origin) := by
  refine ⟨?_, ?_, ?_⟩
  · by_cases h : addr = origin <;> simp [handler_recv_step, h]
  · by_cases h : addr = origin <;> simp [handler_recv_step, h]
  · simp [broadcast_deliveries, List.mem_filter, writes_envelope_iff]

/-- C8: every valid command line with a legal argument count maps to exactly
the corresponding Command; `msg` joins its words with single spaces; `host`
(and `join`) with no argument yields the same Command as with the explicit
argument `localhost:8080`. -/
theorem c8_valid_command_lines_map_exactly (a : String) (ws : List String)
    (h : ws ≠ []) :
    parse_tokens ["host"] = ParseResult.ret (ServerCommand.Host "localhost:8080") ∧
    parse_tokens ["host", a] = ParseResult.ret (ServerCommand.Host a) ∧
    parse_tokens ["join"] = ParseResult.ret (ServerCommand.Join "localhost:8080") ∧
    parse_tokens ["join", a] = ParseResult.ret (ServerCommand.Join a) ∧
    parse_tokens ["leave"] = ParseResult.ret ServerCommand.Leave ∧
    parse_tokens ["shutdown"] = ParseResult.ret ServerCommand.Shutdown ∧
    parse_tokens ("msg" :: ws)
      = ParseResult.ret (ServerCommand.Msg (String.intercalate " " ws)) ∧
    parse_tokens ["quit"] = ParseResult.ret ServerCommand.Quit ∧
    parse_tokens ["help"] = ParseResult.ret ServerCommand.Help ∧
    parse_tokens ["status"] = ParseResult.ret ServerCommand.Status ∧
    parse_line "host" = parse_line "host localhost:8080" := by
  obtain ⟨x, xs, rfl⟩ := List.exists_cons_of_ne_nil h
  exact ⟨rfl, rfl, rfl, rfl, rfl, rfl, rfl, rfl, rfl, rfl, by decide⟩

/-- Witness for C8 at the concrete line `msg a b c`. -/
theorem c8_valid_command_lines_map_exactly_witness :
    parse_tokens ("msg" :: ["a", "b", "c"])
      = ParseResult.ret (ServerCommand.Msg (String.intercalate " " ["a", "b", "c"])) :=
  (c8_valid_command_lines_map_exactly "x" ["a", "b", "c"] (by decide)).2.2.2.2.2.2.1

/-- C9: handling the Status command in any Mode only prints a report and
never mutates Mode: the Admin-position dispatch returns the mode it was
given, the Host-mode dispatch stays in Host with the same bind address, and
the client-session arm continues the loop without writing or ending. -/
theorem c9_status_never_mutates_mode (m : Mode) (a name : String) (w : Bool) :
    main_admin_dispatch m ServerCommand.Status = some m ∧
    host_mode_dispatch a ServerCommand.Status = some (Mode.Host a) ∧
    client_command_step name w ServerCommand.Status = ClientStep.next none :=
  ⟨rfl, rfl, rfl⟩

/-- C10: at end-of-input, `get_command` synthesizes Shutdown from the
zero-byte stdin read; the Admin-position handler for Shutdown keeps the mode
and does not exit; hence any number of driver iterations under persistent
end-of-input leaves the process running in Admin mode — an unbounded loop of
synthesized Shutdown commands, never process exit. -/
theorem c10_admin_eof_loops_without_exit (n : Nat) :
    get_command [ReadEvent.ok ""] = GetOutcome.ret ServerCommand.Shutdown ∧
    main_admin_dispatch Mode.Admin ServerCommand.Shutdown = some Mode.Admin ∧
    admin_eof_iterate n = some Mode.Admin := by
  refine ⟨by decide, rfl, ?_⟩
  induction n with
  | zero => rfl
  | succ k ih => rw [admin_eof_iterate, ih]; rfl

end RustMsgServer
